import Mathlib

/-!
Verification of the PKU domain/key registry and call-gate implementation
(`src/pkuc/pku.c`, with the sibling variant `src/pku.c`).

The C globals (`keys`, `RegisteredPKUCalls`, `g_initialized`, `g_data`)
together with the hardware protection-control register (PKRU) and the
current-domain id are modelled as one explicit state record `CState`.
Fixed-size C arrays are modelled as total functions from `Nat`;
only indices below the array bound are ever meaningful.
C `int` values are modelled as `Int`, unsigned quantities as `Nat`
(32-bit masking is applied exactly where the C code relies on it).
Host-call responses (`WASICALL`/`getentropy`) and `sysconf` results are
oracle parameters, `Option`-valued to represent transport failure.
The cleanup-callback invocations of `PKUDomainFree` are modelled as a
trace of the addresses passed to the callback, in invocation order.
-/

/-- NUM_DOMAINS from `src/pkuc/pku.h`. -/
def NUM_DOMAINS : Nat := 16

/-- NUM_REGISTERED_PKUCALLS from `src/pkuc/pku.h`. -/
def NUM_REGISTERED_PKUCALLS : Nat := 64

/-- NUM_MPROTECT_RANGES from `src/pkuc/pku.c`. -/
def NUM_MPROTECT_RANGES : Nat := 4096

/-- PKEY_DISABLE_ACCESS from `src/pkuc/pku.h`. -/
def PKEY_DISABLE_ACCESS : Nat := 1

/-- PKEY_DISABLE_WRITE from `src/pkuc/pku.h`. -/
def PKEY_DISABLE_WRITE : Nat := 2

/-- PAGESIZEPKU from `src/pkuc/pku.h`. -/
def PAGESIZEPKU : Int := 4096

/-- Linux errno EINVAL, as used by the C sources. -/
def EINVAL : Int := 22

/-- Linux errno EACCES, as used by the C sources. -/
def EACCES : Int := 13

/-- Linux errno EPERM, as used by the C sources. -/
def EPERM : Int := 1

/-- The static `g_LazyFree` flag of `src/pkuc/pku.c`; it is initialised
to `false` and never written anywhere in the source. -/
def g_LazyFree : Bool := false

/-- `struct PKUKey` from `src/pkuc/pku.h`: a domain/key registry entry. -/
structure PKUKey where
  pkey : Nat
  perm : Nat
  used : Bool
deriving Repr, DecidableEq

/-- `struct PKUCall` from `src/pkuc/pku.h`: a registered pkucall slot.
The entry pointer is modelled as a `Nat`, `0` being the null pointer. -/
structure PKUCall where
  did : Int
  entry : Nat
deriving Repr, DecidableEq

/-- The whole mutable state of `src/pkuc/pku.c`: the global `keys` table,
the `RegisteredPKUCalls` table, the `g_initialized` flag, the fields of
`g_data` that the verified operations touch (`initialized`, `domains`,
and the `used`/`addr` columns of `ranges`), the hardware
protection-control register written by `wrpkru`/read by `rdpkru`, and the
current domain id.  The current domain id is kept by `GetCurrentDid` /
`SetCurrentDid`, whose definitions are not part of the sources; they are
modelled from the spec as a plain read/write cell (each thread maintains
its own "currently active domain"). -/
structure CState where
  keys : Nat → PKUKey
  RegisteredPKUCalls : Nat → PKUCall
  g_initialized : Bool
  dataInitialized : Bool
  domains : Nat → PKUKey
  rangesUsed : Nat → Bool
  rangesAddr : Nat → Nat
  pkru : Nat
  curDid : Int

/-- Process-start state: all globals zero-initialised, then the
constructor `PKUInitCtor` marks `keys[0]` as the used root domain with
key 0 and permission 0.  The register model starts at 0, matching the
stubbed `rdpkru` which yields 0, and the root domain is current. -/
def initState : CState where
  keys := fun d => if d = 0 then ⟨0, 0, true⟩ else ⟨0, 0, false⟩
  RegisteredPKUCalls := fun _ => ⟨0, 0⟩
  g_initialized := false
  dataInitialized := false
  domains := fun _ => ⟨0, 0, false⟩
  rangesUsed := fun _ => false
  rangesAddr := fun _ => 0
  pkru := 0
  curDid := 0

/-- `DomainExists` from `src/pkuc/pku.c`:
`did >= 0 && did < NUM_DOMAINS && keys[did].used`. -/
def DomainExists (s : CState) (did : Int) : Bool :=
  decide (0 ≤ did) && decide (did < (NUM_DOMAINS : Int)) && (s.keys did.toNat).used

/-- `SetPkey` from `src/pkuc/pku.c` (identical in `src/pku.c`), acting on
the register value: builds the requested 2-bit field, shifts it to the
key's slot, reads the old register (substituting the literal fallback
`0x55555554` when the read yields 0), clears the slot, and ORs the new
bits in.  The C `~` complement on a 32-bit quantity is modelled as XOR
with `0xFFFFFFFF`. -/
def SetPkey (pkey : Nat) (prot : Nat) (pkru : Nat) : Nat :=
  let pkey_shift := pkey * 2
  let new_pkru_bits :=
    ((if prot &&& PKEY_DISABLE_ACCESS ≠ 0 then PKEY_DISABLE_ACCESS else 0) |||
     (if prot &&& PKEY_DISABLE_WRITE ≠ 0 then PKEY_DISABLE_WRITE else 0)) <<< pkey_shift
  let old_pkru := if pkru = 0 then 0x55555554 else pkru
  let old_pkru := old_pkru &&& (0xFFFFFFFF ^^^ ((PKEY_DISABLE_ACCESS ||| PKEY_DISABLE_WRITE) <<< pkey_shift))
  old_pkru ||| new_pkru_bits

/-- The 2-bit field of register value `v` at key slot `k`. -/
def slotBits (v k : Nat) : Nat := (v >>> (k * 2)) &&& 3

/-- `DoInit` from `src/pkuc/pku.c`: fails if `g_data.initialized` is
already set, fails if `sysconf(_SC_PAGESIZE)` fails (`none`) or the page
size differs from `PAGESIZEPKU`, otherwise sets `g_data.initialized`.
The page size is an oracle parameter. -/
def DoInit (s : CState) (pagesize : Option Int) : Int × CState :=
  if s.dataInitialized then (-1, s)
  else
    match pagesize with
    | none => (-1, s)
    | some p => if PAGESIZEPKU ≠ p then (-1, s) else (0, { s with dataInitialized := true })

/-- `PKUInit` from `src/pkuc/pku.c`: returns 0 at once when
`g_initialized` is already set; otherwise runs `DoInit`, propagating its
failure, and on success sets `g_initialized`.  (The `error:` label with
the `DoInitFinished` deinit is dead code: it is reached only when
`DoInit` returned -1, where `DoInitFinished` is still 0.) -/
def PKUInit (s : CState) (pagesize : Option Int) : Int × CState :=
  if s.g_initialized then (0, s)
  else
    let r := DoInit s pagesize
    if r.fst = -1 then (-1, r.snd)
    else (r.fst, { r.snd with g_initialized := true })

/-- `PKUDeinit` from `src/pkuc/pku.c`: always returns 0. -/
def PKUDeinit (s : CState) : Int × CState := (0, s)

/-- `PKUCreateDomain` from `src/pkuc/pku.c`: issues the host call
(modelled by the oracle `resp`; `none` is a transport failure, returning
-1).  If the granted key byte `resp` is ≥ 16 it returns 0 without
touching any table; otherwise it sets `keys[b].pkey = b` and
`keys[b].used = 1` (the `perm` field is not written) and returns `b`. -/
def PKUCreateDomain (s : CState) (resp : Option Nat) : Int × CState :=
  match resp with
  | none => (-1, s)
  | some b =>
    if 16 ≤ b then (0, s)
    else
      (Int.ofNat b,
       { s with keys := fun d => if d = b then ⟨b, (s.keys b).perm, true⟩ else s.keys d })

/-- `PKUPkeyAlloc` from `src/pkuc/pku.c`: rejects `AccessRights` bits
outside the two disable flags with -1/EINVAL, else delegates to
`PKUCreateDomain`. -/
def PKUPkeyAlloc (s : CState) (AccessRights : Nat) (resp : Option Nat) : Int × CState :=
  if AccessRights &&& (0xFFFFFFFF ^^^ (PKEY_DISABLE_ACCESS ||| PKEY_DISABLE_WRITE)) ≠ 0 then (-1, s)
  else PKUCreateDomain s resp

/-- The slot-scanning loop of `RegisterPKUCall`: starting at index `i`
with `n` iterations left, return the first index whose entry pointer is
null, or `i + n` when the loop runs out (the C loop exits with
`PKUCallID = NUM_REGISTERED_PKUCALLS` in that case). -/
def FindFreePKUCall (s : CState) : Nat → Nat → Nat
  | i, 0 => i
  | i, n + 1 => if (s.RegisteredPKUCalls i).entry = 0 then i else FindFreePKUCall s (i + 1) n

/-- `RegisterPKUCall` from `src/pkuc/pku.c` (identical in `src/pku.c`):
fails with `-EINVAL` when `did` does not exist; scans for the first slot
with a null entry; fails with `-EACCES` when the scan ran off the table;
fails with `-EACCES` if (defensively) the found slot is non-null; stores
`(did, entry)` and returns the slot index. -/
def RegisterPKUCall (s : CState) (did : Int) (entry : Nat) : Int × CState :=
  if ¬ DomainExists s did then (-EINVAL, s)
  else
    let PKUCallID := FindFreePKUCall s 0 NUM_REGISTERED_PKUCALLS
    if NUM_REGISTERED_PKUCALLS ≤ PKUCallID then (-EACCES, s)
    else if (s.RegisteredPKUCalls PKUCallID).entry ≠ 0 then (-EACCES, s)
    else
      (Int.ofNat PKUCallID,
       { s with RegisteredPKUCalls := fun j =>
          if j = PKUCallID then ⟨did, entry⟩ else s.RegisteredPKUCalls j })

/-- The range-sweeping loop of `PKUDomainFree`: starting at index `i`
with `n` iterations left, collect (in table order) the addresses of the
still-used range records on which the cleanup callback
`g_data.UserHandler` is invoked. -/
def sweepRanges (s : CState) : Nat → Nat → List Nat
  | _, 0 => []
  | i, n + 1 => (if s.rangesUsed i then [s.rangesAddr i] else []) ++ sweepRanges s (i + 1) n

/-- Result of `PKUDomainFree` / `PKUPkeyFree`: the C return value, the
errno value set by the call (`none` when errno is left untouched), the
post-state, and the trace of addresses passed to the cleanup callback. -/
structure FreeResult where
  ret : Int
  errno : Option Int
  state : CState
  trace : List Nat

/-- `PKUDomainFree` from `src/pkuc/pku.c`: fails (-1, errno untouched)
when `g_data.initialized` is 0; fails (-1, EINVAL) when the domain does
not exist; fails (-1, EINVAL) when any `g_data.domains` slot is used;
otherwise invokes the cleanup callback on every still-used range record
in table order, then clears the `pkey`/`perm`/`used` fields of
`g_data.domains[domain]` (the `keys` table is not touched). -/
def PKUDomainFree (s : CState) (domain : Int) : FreeResult :=
  if ¬ s.dataInitialized then ⟨-1, none, s, []⟩
  else if ¬ DomainExists s domain then ⟨-1, some EINVAL, s, []⟩
  else if (List.range NUM_DOMAINS).any (fun did => (s.domains did).used) then
    ⟨-1, some EINVAL, s, []⟩
  else
    let trace := sweepRanges s 0 NUM_MPROTECT_RANGES
    ⟨0, none,
     { s with domains := fun d => if d = domain.toNat then ⟨0, 0, false⟩ else s.domains d },
     trace⟩

/-- `PKUPkeyFree` from `src/pkuc/pku.c`: scans range records — with loop
bound `NUM_DOMAINS` (16), exactly as in the source, although the table
has `NUM_MPROTECT_RANGES` (4096) entries — and fails (-1, EPERM) if one
is used; then marks every used `g_data.domains` slot unused; then, since
`g_LazyFree` is false, calls `PKUDomainFree(pkey)` and returns its
result. -/
def PKUPkeyFree (s : CState) (pkey : Int) : FreeResult :=
  if (List.range NUM_DOMAINS).any (fun rid => s.rangesUsed rid) then ⟨-1, some EPERM, s, []⟩
  else
    let s1 := (List.range NUM_DOMAINS).foldl
      (fun t did =>
        if (t.domains did).used then
          { t with domains := fun d => if d = did then { t.domains did with used := false } else t.domains d }
        else t) s
    if g_LazyFree then ⟨0, none, s1, []⟩
    else PKUDomainFree s1 pkey

/-- `PKUDomainAssignPkey` from `src/pkuc/pku.c`: fails with `-EINVAL`
when the current domain does not exist, when the target domain does not
exist, or when `AccessRights` has bits outside the two disable flags;
otherwise calls `SetPkey(keys[did].pkey, keys[did].perm)` — note that it
commits the pre-existing `keys[did].perm` and never stores
`AccessRights` — and returns 0. -/
def PKUDomainAssignPkey (s : CState) (did : Int) (AccessRights : Nat) : Int × CState :=
  if ¬ DomainExists s s.curDid then (-EINVAL, s)
  else if ¬ DomainExists s did then (-EINVAL, s)
  else if AccessRights &&& (0xFFFFFFFF ^^^ (PKEY_DISABLE_ACCESS ||| PKEY_DISABLE_WRITE)) ≠ 0 then
    (-EINVAL, s)
  else
    (0, { s with pkru := SetPkey (s.keys did.toNat).pkey (s.keys did.toNat).perm s.pkru })

/-- `PKUSwitch` from `src/pkuc/pku.c`: reads the slot's domain id with no
validation of `PKUCallID` whatsoever, applies that domain's key and
permission to the register via `SetPkey`, makes it current, and returns
0. -/
def PKUSwitch (s : CState) (PKUCallID : Nat) : Int × CState :=
  let did := (s.RegisteredPKUCalls PKUCallID).did
  (0, { s with
        pkru := SetPkey (s.keys did.toNat).pkey (s.keys did.toNat).perm s.pkru,
        curDid := did })

/-- `PKURestore` from `src/pkuc/pku.c`: sets the current domain's key
slot to disable-access + disable-write via `SetPkey`, then makes `did`
current, and returns 0. -/
def PKURestore (s : CState) (did : Int) : Int × CState :=
  (0, { s with
        pkru := SetPkey (s.keys s.curDid.toNat).pkey
                  (PKEY_DISABLE_ACCESS ||| PKEY_DISABLE_WRITE) s.pkru,
        curDid := did })

/-- One step of the system: any modelled operation, with arbitrary
arguments and arbitrary oracle responses. -/
inductive Step : CState → CState → Prop where
  | init : ∀ s p, Step s (PKUInit s p).snd
  | deinit : ∀ s, Step s (PKUDeinit s).snd
  | create : ∀ s r, Step s (PKUCreateDomain s r).snd
  | keyAlloc : ∀ s a r, Step s (PKUPkeyAlloc s a r).snd
  | domainFree : ∀ s d, Step s (PKUDomainFree s d).state
  | keyFree : ∀ s k, Step s (PKUPkeyFree s k).state
  | assign : ∀ s d a, Step s (PKUDomainAssignPkey s d a).snd
  | register : ∀ s d e, Step s (RegisterPKUCall s d e).snd
  | pkuswitch : ∀ s i, Step s (PKUSwitch s i).snd
  | restore : ∀ s d, Step s (PKURestore s d).snd

/-- The states the program can reach: the process-start state, closed
under the modelled operations. -/
inductive Reachable : CState → Prop where
  | start : Reachable initState
  | step : ∀ {s t}, Reachable s → Step s t → Reachable t

/-! ### Basic lemmas about the register codec -/

theorem SetPkey_unfold (k p P : Nat) :
    SetPkey k p P =
      ((if P = 0 then 0x55555554 else P) &&& (0xFFFFFFFF ^^^ ((3:Nat) <<< (k * 2)))) |||
        (((if p &&& 1 ≠ 0 then 1 else 0) ||| (if p &&& 2 ≠ 0 then 2 else 0)) <<< (k * 2)) := by
  simp [SetPkey, PKEY_DISABLE_ACCESS, PKEY_DISABLE_WRITE]

theorem SetPkey_eq (k p P : Nat) (hP0 : P ≠ 0) :
    SetPkey k p P = (P &&& (0xFFFFFFFF ^^^ ((3:Nat) <<< (k * 2)))) |||
      (((if p &&& 1 ≠ 0 then 1 else 0) ||| (if p &&& 2 ≠ 0 then 2 else 0)) <<< (k * 2)) := by
  simp [SetPkey, PKEY_DISABLE_ACCESS, PKEY_DISABLE_WRITE, hP0]

theorem npbits_eq (p : Nat) :
    ((if p &&& 1 ≠ 0 then 1 else 0) ||| (if p &&& 2 ≠ 0 then 2 else 0) : Nat) = p &&& 3 := by
  have hm1 : p &&& 1 = p % 2 := Nat.and_one_is_mod p
  have hm2 : p &&& 2 = p / 2 % 2 * 2 := by
    rw [show (2:Nat) = 2^1 by norm_num, Nat.and_two_pow, Nat.testBit_to_div_mod]
    rcases Nat.mod_two_eq_zero_or_one (p / 2 ^ 1) with h | h <;>
      · rw [h]
        simp [pow_one] at h
        simp [h]
  have hm3 : p &&& 3 = p % 4 := by
    rw [show (3:Nat) = 2^2 - 1 by norm_num, Nat.and_pow_two_sub_one_eq_mod]
  rw [hm1, hm2, hm3]
  rcases Nat.mod_two_eq_zero_or_one p with he | he <;>
    rcases Nat.mod_two_eq_zero_or_one (p / 2) with hd | hd <;>
      simp [he, hd] <;> omega

theorem slotBits_SetPkey_self (k p P : Nat) (hk : k < 16) :
    slotBits (SetPkey k p P) k = p &&& 3 := by
  rw [← npbits_eq]
  rw [SetPkey_unfold, slotBits]
  apply Nat.eq_of_testBit_eq
  intro j
  have hsplit : ∀ X : Nat,
      ((X >>> (k * 2)) &&& 3).testBit j = (X.testBit (k * 2 + j) && (3:Nat).testBit j) := by
    intro X
    rw [Nat.testBit_and, Nat.testBit_shiftRight]
  rw [hsplit]
  by_cases hj : j < 2
  · have hf : (0xFFFFFFFF : Nat).testBit (k * 2 + j) = true := by
      rw [show (0xFFFFFFFF : Nat) = 2^32 - 1 by norm_num, Nat.testBit_two_pow_sub_one]
      simp
      omega
    have hm : ((3:Nat) <<< (k * 2)).testBit (k * 2 + j) = true := by
      rw [Nat.testBit_shiftLeft]
      simp [show k * 2 ≤ k * 2 + j by omega, show k * 2 + j - k * 2 = j by omega]
      interval_cases j <;> decide
    have hM : ((0xFFFFFFFF : Nat) ^^^ ((3:Nat) <<< (k * 2))).testBit (k * 2 + j) = false := by
      rw [Nat.testBit_xor, hf, hm]
      rfl
    have hnb : ((((if p &&& 1 ≠ 0 then 1 else 0) ||| (if p &&& 2 ≠ 0 then 2 else 0) : Nat) <<< (k * 2)).testBit (k * 2 + j)) =
        ((if p &&& 1 ≠ 0 then 1 else 0) ||| (if p &&& 2 ≠ 0 then 2 else 0) : Nat).testBit j := by
      rw [Nat.testBit_shiftLeft]
      simp [show k * 2 ≤ k * 2 + j by omega, show k * 2 + j - k * 2 = j by omega]
    rw [Nat.testBit_or, Nat.testBit_and, hM, hnb]
    have h3 : (3:Nat).testBit j = true := by interval_cases j <;> decide
    rw [h3]
    simp
  · have h3 : (3:Nat).testBit j = false := by
      apply Nat.testBit_lt_two_pow
      calc (3:Nat) < 2^2 := by norm_num
      _ ≤ 2^j := Nat.pow_le_pow_right (by norm_num) (by omega)
    have hcf : ((if p &&& 1 ≠ 0 then 1 else 0) ||| (if p &&& 2 ≠ 0 then 2 else 0) : Nat).testBit j = false := by
      apply Nat.testBit_lt_two_pow
      calc ((if p &&& 1 ≠ 0 then 1 else 0) ||| (if p &&& 2 ≠ 0 then 2 else 0) : Nat) < 4 := by
            split <;> split <;> decide
      _ ≤ 2^j := by
            calc (4:Nat) = 2^2 := by norm_num
            _ ≤ 2^j := Nat.pow_le_pow_right (by norm_num) (by omega)
    rw [h3, hcf]
    simp

theorem SetPkey_restore_of (k p P : Nat) (hk : k < 16) (hP32 : P < 2^32) (hP0 : P ≠ 0)
    (hb1 : P.testBit (k * 2) = true) (hb2 : P.testBit (k * 2 + 1) = true)
    (hrest : P &&& (0xFFFFFFFF ^^^ ((3:Nat) <<< (k * 2))) ≠ 0) :
    SetPkey k 3 (SetPkey k p P) = P := by
  have hP1 : SetPkey k p P ≠ 0 := by
    rw [SetPkey_eq k p P hP0]
    intro h0
    apply hrest
    apply Nat.eq_of_testBit_eq
    intro i
    have h1 := congrArg (Nat.testBit · i) h0
    simp only [Nat.testBit_or, Nat.zero_testBit, Bool.or_eq_false_iff] at h1
    simp [h1.1]
  rw [SetPkey_eq k 3 (SetPkey k p P) hP1, SetPkey_eq k p P hP0]
  have hff : (0xFFFFFFFF : Nat) = 2^32 - 1 := by norm_num
  have hmlt : ((3:Nat) <<< (k * 2)) < 2^32 := by
    rw [Nat.shiftLeft_eq]
    calc 3 * 2^(k*2) ≤ 3 * 2^30 :=
          Nat.mul_le_mul_left 3 (Nat.pow_le_pow_right (by norm_num) (by omega))
    _ < 2^32 := by norm_num
  have hc : ((if p &&& 1 ≠ 0 then 1 else 0) ||| if p &&& 2 ≠ 0 then 2 else 0 : Nat) < 4 := by
    split <;> split <;> decide
  apply Nat.eq_of_testBit_eq
  intro i
  simp only [Nat.testBit_or, Nat.testBit_and, Nat.testBit_xor, hff,
    Nat.testBit_two_pow_sub_one]
  by_cases hi : i < 32
  · by_cases hm : ((3 : Nat) <<< (k * 2)).testBit i = true
    · have hPi : P.testBit i = true := by
        rw [Nat.testBit_shiftLeft] at hm
        have hle : k * 2 ≤ i := by
          by_contra hlt
          simp [hlt] at hm
        have h3 : (3 : Nat).testBit (i - k * 2) = true := by
          simpa [hle] using hm
        have hj : i - k * 2 < 2 := by
          by_contra hge
          have hz : (3 : Nat).testBit (i - k * 2) = false := by
            apply Nat.testBit_lt_two_pow
            calc (3:Nat) < 2^2 := by norm_num
            _ ≤ 2^(i - k*2) := Nat.pow_le_pow_right (by norm_num) (by omega)
          rw [hz] at h3
          exact Bool.false_ne_true h3
        rcases (by omega : i = k * 2 ∨ i = k * 2 + 1) with h | h
        · rw [h]; exact hb1
        · rw [h]; exact hb2
      simp [hm, hPi, hi]
    · have hnb : (((if p &&& 1 ≠ 0 then 1 else 0) ||| (if p &&& 2 ≠ 0 then 2 else 0) : Nat) <<< (k * 2)).testBit i = false := by
        rw [Nat.testBit_shiftLeft]
        rw [Nat.testBit_shiftLeft] at hm
        by_cases hle : k * 2 ≤ i
        · simp only [hle, decide_True, Bool.true_and] at hm ⊢
          by_contra hcb
          rw [Bool.not_eq_false] at hcb
          have hj : i - k * 2 < 2 := by
            by_contra hge
            have hz : ((if p &&& 1 ≠ 0 then 1 else 0) ||| (if p &&& 2 ≠ 0 then 2 else 0) : Nat).testBit (i - k * 2) = false := by
              apply Nat.testBit_lt_two_pow
              calc ((if p &&& 1 ≠ 0 then 1 else 0) ||| (if p &&& 2 ≠ 0 then 2 else 0) : Nat) < 4 := hc
              _ ≤ 2^(i - k*2) := by
                    calc (4:Nat) = 2^2 := by norm_num
                    _ ≤ 2^(i - k*2) := Nat.pow_le_pow_right (by norm_num) (by omega)
            rw [hz] at hcb
            exact Bool.false_ne_true hcb
          have h32 : (3 : Nat).testBit (i - k * 2) = true := by
            interval_cases h : (i - k * 2) <;> decide
          rw [h32] at hm
          exact hm rfl
        · simp [hle]
      simp only [Bool.not_eq_true] at hm
      simp only [hm, hnb]
      simp [hi]
      intro hle h3
      rw [Nat.testBit_shiftLeft] at hm
      simp [hle, h3] at hm
  · have hmf : ((3 : Nat) <<< (k * 2)).testBit i = false :=
      Nat.testBit_lt_two_pow (lt_of_lt_of_le hmlt (Nat.pow_le_pow_right (by norm_num) (by omega)))
    have hPf : P.testBit i = false :=
      Nat.testBit_lt_two_pow (lt_of_lt_of_le hP32 (Nat.pow_le_pow_right (by norm_num) (by omega)))
    simp [hi, hmf, hPf]

/-! ### Lemmas about the call-slot scan and the range sweep -/

theorem FindFreePKUCall_eq_of (s : CState) :
    ∀ n i j, i ≤ j → j < i + n → (s.RegisteredPKUCalls j).entry = 0 →
      (∀ m, i ≤ m → m < j → (s.RegisteredPKUCalls m).entry ≠ 0) →
      FindFreePKUCall s i n = j := by
  intro n
  induction n with
  | zero =>
    intro i j h1 h2 _ _
    omega
  | succ n ih =>
    intro i j h1 h2 hj hmin
    by_cases he : (s.RegisteredPKUCalls i).entry = 0
    · have hij : i = j := by
        rcases Nat.lt_or_ge i j with h | h
        · exact absurd he (hmin i (Nat.le_refl i) h)
        · omega
      subst hij
      simp [FindFreePKUCall, he]
    · have hij : i < j := by
        rcases Nat.lt_or_ge i j with h | h
        · exact h
        · have : i = j := by omega
          rw [this] at he
          exact absurd hj he
      simp only [FindFreePKUCall, he, if_false]
      exact ih (i + 1) j (by omega) (by omega) hj (fun m hm1 hm2 => hmin m (by omega) hm2)

theorem FindFreePKUCall_none (s : CState) :
    ∀ n i, (∀ m, i ≤ m → m < i + n → (s.RegisteredPKUCalls m).entry ≠ 0) →
      FindFreePKUCall s i n = i + n := by
  intro n
  induction n with
  | zero =>
    intro i _
    rfl
  | succ n ih =>
    intro i hall
    have he : (s.RegisteredPKUCalls i).entry ≠ 0 := hall i (Nat.le_refl i) (by omega)
    simp only [FindFreePKUCall, he, if_false]
    have := ih (i + 1) (fun m hm1 hm2 => hall m (by omega) (by omega))
    omega

theorem sweepRanges_eq (s : CState) :
    ∀ n i, sweepRanges s i n = ((List.range' i n).filter s.rangesUsed).map s.rangesAddr := by
  intro n
  induction n with
  | zero =>
    intro i
    simp [sweepRanges]
  | succ n ih =>
    intro i
    rw [sweepRanges, List.range'_succ, List.filter_cons]
    by_cases hu : s.rangesUsed i
    · simp [hu, ih (i + 1)]
    · simp only [Bool.not_eq_true] at hu
      simp [hu, ih (i + 1)]

/-! ### The `keys` table is written only by `PKUCreateDomain` -/

theorem keys_DoInit (s : CState) (p : Option Int) : ((DoInit s p).snd).keys = s.keys := by
  unfold DoInit
  split
  · rfl
  · cases p with
    | none => rfl
    | some q =>
      dsimp only
      split <;> rfl

theorem keys_PKUInit (s : CState) (p : Option Int) : ((PKUInit s p).snd).keys = s.keys := by
  unfold PKUInit
  split
  · rfl
  · dsimp only
    split
    · exact keys_DoInit s p
    · exact keys_DoInit s p

theorem keys_PKUDomainFree (s : CState) (d : Int) :
    ((PKUDomainFree s d).state).keys = s.keys := by
  unfold PKUDomainFree
  split
  · rfl
  · split
    · rfl
    · split <;> rfl

theorem keys_revoke_foldl (l : List Nat) :
    ∀ s : CState,
      ((l.foldl
        (fun t did =>
          if (t.domains did).used then
            { t with domains := fun d => if d = did then { t.domains did with used := false } else t.domains d }
          else t) s)).keys = s.keys := by
  induction l with
  | nil =>
    intro s
    rfl
  | cons a l ih =>
    intro s
    rw [List.foldl_cons]
    rw [ih]
    split <;> rfl

theorem keys_PKUPkeyFree (s : CState) (k : Int) :
    ((PKUPkeyFree s k).state).keys = s.keys := by
  unfold PKUPkeyFree
  split
  · rfl
  · dsimp only
    split
    · exact keys_revoke_foldl (List.range NUM_DOMAINS) s
    · rw [keys_PKUDomainFree]
      exact keys_revoke_foldl (List.range NUM_DOMAINS) s

theorem keys_RegisterPKUCall (s : CState) (d : Int) (e : Nat) :
    ((RegisterPKUCall s d e).snd).keys = s.keys := by
  unfold RegisterPKUCall
  split
  · rfl
  · dsimp only
    split
    · rfl
    · split <;> rfl

theorem keys_PKUDomainAssignPkey (s : CState) (d : Int) (a : Nat) :
    ((PKUDomainAssignPkey s d a).snd).keys = s.keys := by
  unfold PKUDomainAssignPkey
  split
  · rfl
  · split
    · rfl
    · split <;> rfl

theorem keys_PKUPkeyAlloc_or_create (s : CState) (a : Nat) (r : Option Nat) :
    ((PKUPkeyAlloc s a r).snd).keys = ((PKUCreateDomain s r).snd).keys ∨
      ((PKUPkeyAlloc s a r).snd).keys = s.keys := by
  unfold PKUPkeyAlloc
  split
  · right
    rfl
  · left
    rfl

/-! ### Invariants of reachable states -/

theorem perm_zero_PKUCreateDomain (s : CState) (r : Option Nat)
    (h : ∀ d, (s.keys d).perm = 0) :
    ∀ d, (((PKUCreateDomain s r).snd).keys d).perm = 0 := by
  intro d
  unfold PKUCreateDomain
  cases r with
  | none => exact h d
  | some b =>
    dsimp only
    split
    · exact h d
    · dsimp only
      by_cases hd : d = b
      · simp [hd, h b]
      · simp [hd, h d]

theorem root_used_PKUCreateDomain (s : CState) (r : Option Nat)
    (h : (s.keys 0).used = true) :
    (((PKUCreateDomain s r).snd).keys 0).used = true := by
  unfold PKUCreateDomain
  cases r with
  | none => exact h
  | some b =>
    dsimp only
    split
    · exact h
    · dsimp only
      by_cases hb : (0 : Nat) = b
      · simp [← hb]
      · simp [hb, h]

theorem step_perm_zero {s t : CState} (hst : Step s t) (h : ∀ d, (s.keys d).perm = 0) :
    ∀ d, (t.keys d).perm = 0 := by
  cases hst with
  | init p =>
    intro d
    rw [keys_PKUInit]
    exact h d
  | deinit => exact h
  | create r => exact perm_zero_PKUCreateDomain s r h
  | keyAlloc a r =>
    intro d
    unfold PKUPkeyAlloc
    split
    · exact h d
    · exact perm_zero_PKUCreateDomain s r h d
  | domainFree d =>
    intro x
    rw [keys_PKUDomainFree]
    exact h x
  | keyFree k =>
    intro x
    rw [keys_PKUPkeyFree]
    exact h x
  | assign d a =>
    intro x
    rw [keys_PKUDomainAssignPkey]
    exact h x
  | register d e =>
    intro x
    rw [keys_RegisterPKUCall]
    exact h x
  | pkuswitch i => exact h
  | restore d => exact h

theorem step_root_used {s t : CState} (hst : Step s t) (h : (s.keys 0).used = true) :
    (t.keys 0).used = true := by
  cases hst with
  | init p =>
    rw [keys_PKUInit]
    exact h
  | deinit => exact h
  | create r => exact root_used_PKUCreateDomain s r h
  | keyAlloc a r =>
    unfold PKUPkeyAlloc
    split
    · exact h
    · exact root_used_PKUCreateDomain s r h
  | domainFree d =>
    rw [keys_PKUDomainFree]
    exact h
  | keyFree k =>
    rw [keys_PKUPkeyFree]
    exact h
  | assign d a =>
    rw [keys_PKUDomainAssignPkey]
    exact h
  | register d e =>
    rw [keys_RegisterPKUCall]
    exact h
  | pkuswitch i => exact h
  | restore d => exact h

theorem reachable_perm_zero {s : CState} (h : Reachable s) : ∀ d, (s.keys d).perm = 0 := by
  induction h with
  | start =>
    intro d
    unfold initState
    dsimp only
    split <;> rfl
  | step _ hst ih => exact step_perm_zero hst ih

theorem reachable_root_used {s : CState} (h : Reachable s) : (s.keys 0).used = true := by
  induction h with
  | start => rfl
  | step _ hst ih => exact step_root_used hst ih

/-! ### Claims -/

/-- Claim C1: the specification requires that `Switch` with an invalid
`pkucallId` (out of range, or an in-range slot with a null entry pointer)
reports an error and leaves the register and all tables unchanged.  The
code performs no validation at all.  Evaluated at the failing input — call
id 0 with an empty call table (slot 0 has a null entry pointer) and
register value 0 — `PKUSwitch` returns 0 (success, not an error) and
changes the register from 0 to the fallback-derived value `0x55555554`,
contradicting the claim. -/
theorem claim_C1_switch_unvalidated_eval :
    (initState.RegisteredPKUCalls 0).entry = 0 ∧
    (PKUSwitch initState 0).fst = 0 ∧
    initState.pkru = 0 ∧
    ((PKUSwitch initState 0).snd).pkru = 0x55555554 ∧
    ((PKUSwitch initState 0).snd).pkru ≠ initState.pkru := by
  decide

/-- Claim C7 (amended): when the register read yields no value (the
stubbed read returns 0), `SetPkey` substitutes the fixed fallback value
`0x55555554`, in which key slot 0 has both disable bits clear and every
key slot 1..15 has the disable-access bit set and the disable-write bit
clear (not both bits, as the claim states); the substitution is applied
consistently: `SetPkey` on a zero register behaves exactly as on the
fallback value. -/
theorem claim_C7_fallback_register (k : Nat) (p prot : Nat)
    (hk1 : 1 ≤ k) (hk16 : k < 16) :
    SetPkey p prot 0 = SetPkey p prot 0x55555554 ∧
    slotBits 0x55555554 0 = 0 ∧
    slotBits 0x55555554 k = PKEY_DISABLE_ACCESS := by
  refine ⟨?_, by decide, ?_⟩
  · rw [SetPkey_unfold p prot 0, SetPkey_unfold p prot 0x55555554]
    norm_num
  · interval_cases k <;> decide

/-- Claim C7 counterexample: the claim states that in the substituted
fallback every key slot 1..15 has both the disable-access and
disable-write bits set; but after a `SetPkey` on key 0 over an unreadable
(zero) register, slot 1 of the resulting register holds only the
disable-access bit (value 1, not 3). -/
theorem claim_C7_counterexample :
    SetPkey 0 0 0 = 0x55555554 ∧
    slotBits (SetPkey 0 0 0) 1 = 1 ∧
    slotBits (SetPkey 0 0 0) 1 ≠ PKEY_DISABLE_ACCESS + PKEY_DISABLE_WRITE := by
  decide

/-- Witness for C7: the fallback facts instantiated at key 3 with a
concrete `SetPkey` argument pair. -/
theorem claim_C7_witness :
    SetPkey 5 2 0 = SetPkey 5 2 0x55555554 ∧ slotBits 0x55555554 3 = PKEY_DISABLE_ACCESS :=
  ⟨(claim_C7_fallback_register 3 5 2 (by decide) (by decide)).1,
   (claim_C7_fallback_register 3 5 2 (by decide) (by decide)).2.2⟩

/-- Claim C8 (amended): a repeated `Init` does not fail: when
`g_initialized` is already set, `PKUInit` returns 0 immediately without
re-running initialization.  On a first call (neither flag set) it fails
with -1 and leaves the state unchanged when the observed page size is
unavailable or differs from 4096, and succeeds — setting both
initialization flags — when the page size is 4096. -/
theorem claim_C8_init_behaviour (s : CState) (p : Option Int) :
    (s.g_initialized = true → PKUInit s p = (0, s)) ∧
    (s.g_initialized = false → s.dataInitialized = false → p ≠ some PAGESIZEPKU →
      PKUInit s p = (-1, s)) ∧
    (s.g_initialized = false → s.dataInitialized = false →
      PKUInit s (some PAGESIZEPKU) =
        (0, { s with dataInitialized := true, g_initialized := true })) := by
  refine ⟨?_, ?_, ?_⟩
  · intro h1
    simp [PKUInit, h1]
  · intro h1 h2 h3
    cases p with
    | none => simp [PKUInit, DoInit, h1, h2]
    | some q =>
      have hq : PAGESIZEPKU ≠ q := by
        intro he
        exact h3 (by rw [he])
      simp [PKUInit, DoInit, h1, h2, hq]
  · intro h1 h2
    simp [PKUInit, DoInit, h1, h2]

/-- Claim C8 counterexample: the claim states `Init` fails when called
while the system is already initialized; but after a successful first
`PKUInit`, a second call returns 0 (success) — even with a bad observed
page size — instead of failing. -/
theorem claim_C8_counterexample :
    (PKUInit initState (some 4096)).fst = 0 ∧
    ((PKUInit initState (some 4096)).snd).g_initialized = true ∧
    (PKUInit (PKUInit initState (some 4096)).snd (some 9999)).fst = 0 := by
  decide

/-- Witness for C8: the three branches instantiated at concrete states. -/
theorem claim_C8_witness :
    PKUInit { initState with g_initialized := true } (some 7) =
      (0, { initState with g_initialized := true }) ∧
    PKUInit initState (some 7) = (-1, initState) ∧
    PKUInit initState (some PAGESIZEPKU) =
      (0, { initState with dataInitialized := true, g_initialized := true }) :=
  ⟨(claim_C8_init_behaviour { initState with g_initialized := true } (some 7)).1 rfl,
   (claim_C8_init_behaviour initState (some 7)).2.1 rfl rfl (by decide),
   (claim_C8_init_behaviour initState (some PAGESIZEPKU)).2.2 rfl rfl⟩

/-- Claim C9: `RegisterPKUCall` fails with `-EINVAL` (InvalidDomain) and
leaves the call table unchanged when `did` does not exist; otherwise it
stores `(did, entry)` in the lowest-indexed slot whose entry pointer is
null and returns that index, leaving all other slots unchanged; and when
all 64 slots hold non-null entries it fails with `-EACCES` (the code's
encoding of ResourceExhausted) without changing any slot. -/
theorem claim_C9_register_call (s : CState) (did : Int) (entry : Nat) :
    (DomainExists s did = false → RegisterPKUCall s did entry = (-EINVAL, s)) ∧
    (∀ id0, DomainExists s did = true → id0 < NUM_REGISTERED_PKUCALLS →
      (s.RegisteredPKUCalls id0).entry = 0 →
      (∀ j, j < id0 → (s.RegisteredPKUCalls j).entry ≠ 0) →
      (RegisterPKUCall s did entry).fst = Int.ofNat id0 ∧
      ((RegisterPKUCall s did entry).snd).RegisteredPKUCalls id0 = ⟨did, entry⟩ ∧
      (∀ j, j ≠ id0 →
        ((RegisterPKUCall s did entry).snd).RegisteredPKUCalls j = s.RegisteredPKUCalls j)) ∧
    (DomainExists s did = true →
      (∀ j, j < NUM_REGISTERED_PKUCALLS → (s.RegisteredPKUCalls j).entry ≠ 0) →
      RegisterPKUCall s did entry = (-EACCES, s)) := by
  refine ⟨?_, ?_, ?_⟩
  · intro h1
    simp [RegisterPKUCall, h1]
  · intro id0 h1 h2 h3 h4
    have hfind : FindFreePKUCall s 0 NUM_REGISTERED_PKUCALLS = id0 :=
      FindFreePKUCall_eq_of s NUM_REGISTERED_PKUCALLS 0 id0 (Nat.zero_le id0) (by omega) h3
        (fun m _ hm2 => h4 m hm2)
    have hlt : ¬ NUM_REGISTERED_PKUCALLS ≤ id0 := by omega
    refine ⟨?_, ?_, ?_⟩
    · simp [RegisterPKUCall, h1, hfind, hlt, h3]
    · simp [RegisterPKUCall, h1, hfind, hlt, h3]
    · intro j hj
      simp [RegisterPKUCall, h1, hfind, hlt, h3, hj]
  · intro h1 h2
    have hfind : FindFreePKUCall s 0 NUM_REGISTERED_PKUCALLS = NUM_REGISTERED_PKUCALLS := by
      have := FindFreePKUCall_none s NUM_REGISTERED_PKUCALLS 0
        (fun m _ hm2 => h2 m (by omega))
      omega
    simp [RegisterPKUCall, h1, hfind]

/-- Witness for C9: on the fresh table, registering an entry for the root
domain picks slot 0 and stores the pair; registering for the nonexistent
domain 5 fails with `-EINVAL` and leaves the state untouched. -/
theorem claim_C9_witness :
    (RegisterPKUCall initState 0 7).fst = Int.ofNat 0 ∧
    ((RegisterPKUCall initState 0 7).snd).RegisteredPKUCalls 0 = ⟨0, 7⟩ ∧
    RegisterPKUCall initState 5 7 = (-EINVAL, initState) :=
  ⟨((claim_C9_register_call initState 0 7).2.1 0 (by decide) (by decide) (by decide)
      (fun j hj => absurd hj (Nat.not_lt_zero j))).1,
   ((claim_C9_register_call initState 0 7).2.1 0 (by decide) (by decide) (by decide)
      (fun j hj => absurd hj (Nat.not_lt_zero j))).2.1,
   (claim_C9_register_call initState 5 7).1 (by decide)⟩

/-- Claim C10: in any reachable state, when the backend grants a key
index outside 0..15, `PKUCreateDomain` returns 0 and changes nothing —
and 0 is precisely the did of the root domain, which is marked used from
process start onward, so the "no key granted" sentinel is
indistinguishable by value from a valid handle to the root domain. -/
theorem claim_C10_sentinel_collision (s : CState) (hs : Reachable s) (b : Nat)
    (hb : 16 ≤ b) :
    PKUCreateDomain s (some b) = (0, s) ∧
    DomainExists s 0 = true ∧
    (PKUCreateDomain s (some b)).fst = (0 : Int) := by
  have hroot : (s.keys 0).used = true := reachable_root_used hs
  have hcd : PKUCreateDomain s (some b) = (0, s) := by
    simp [PKUCreateDomain, hb]
  refine ⟨hcd, ?_, by rw [hcd]⟩
  simp [DomainExists, hroot]
  decide

/-- Witness for C10: at the start state with the backend granting key
index 16, creation returns the root domain's id 0. -/
theorem claim_C10_witness :
    PKUCreateDomain initState (some 16) = (0, initState) ∧
    DomainExists initState 0 = true :=
  ⟨(claim_C10_sentinel_collision initState Reachable.start 16 (by decide)).1,
   (claim_C10_sentinel_collision initState Reachable.start 16 (by decide)).2.1⟩

/-- Claim C5: in any reachable state, if `PKUDomainFree(did)` succeeds
and a subsequent `PKUCreateDomain` is granted the same slot `b = did` by
the backend, the reused slot's stored permission bits are zero.  (This
holds because no operation of the program ever writes a nonzero `perm`
into the `keys` table, so the permission bits of every slot are 0 in
every reachable state; neither the free nor the create clears them.) -/
theorem claim_C5_no_residual_perm (s : CState) (hs : Reachable s) (did : Int) (b : Nat)
    (hfree : (PKUDomainFree s did).ret = 0) (hb : b < 16) (hsame : did = Int.ofNat b) :
    (((PKUCreateDomain (PKUDomainFree s did).state (some b)).snd).keys b).perm = 0 := by
  have hperm : ∀ d, (((PKUDomainFree s did).state).keys d).perm = 0 := by
    intro d
    rw [keys_PKUDomainFree]
    exact reachable_perm_zero hs d
  exact perm_zero_PKUCreateDomain ((PKUDomainFree s did).state) (some b) hperm b

/-- The state after a successful first `PKUInit` with page size 4096. -/
def sInit1 : CState := (PKUInit initState (some PAGESIZEPKU)).snd

/-- Witness for C5: after initialization, freeing the root domain slot 0
succeeds, and re-creating with granted key 0 leaves its permission bits
at zero. -/
theorem claim_C5_witness :
    (PKUDomainFree sInit1 0).ret = 0 ∧
    (((PKUCreateDomain (PKUDomainFree sInit1 0).state (some 0)).snd).keys 0).perm = 0 :=
  ⟨by decide,
   claim_C5_no_residual_perm sInit1
     (Reachable.step Reachable.start (Step.init initState (some PAGESIZEPKU))) 0 0
     (by decide) (by decide) rfl⟩

/-- Claim C2 (amended): in general `Restore` forces the called domain's
key slot to disable-access+disable-write (and a zero register is
replaced by the fallback), so `Switch(id)` followed by `Restore(D)` is
not the identity on the register; it does restore the register to its
pre-`Switch` value whenever that value is nonzero (so the fallback is
not substituted), already has both disable bits set in the called
domain's key slot, and has at least one bit set outside that slot. -/
theorem claim_C2_switch_restore_roundtrip (s : CState) (id : Nat) (D : Int)
    (hreg : (s.RegisteredPKUCalls id).entry ≠ 0)
    (hk : (s.keys ((s.RegisteredPKUCalls id).did).toNat).pkey < 16)
    (hP32 : s.pkru < 2^32) (hP0 : s.pkru ≠ 0)
    (hb1 : s.pkru.testBit ((s.keys ((s.RegisteredPKUCalls id).did).toNat).pkey * 2) = true)
    (hb2 : s.pkru.testBit ((s.keys ((s.RegisteredPKUCalls id).did).toNat).pkey * 2 + 1) = true)
    (hrest : s.pkru &&&
      (0xFFFFFFFF ^^^ ((3:Nat) <<< ((s.keys ((s.RegisteredPKUCalls id).did).toNat).pkey * 2))) ≠ 0) :
    ((PKURestore (PKUSwitch s id).snd D).snd).pkru = s.pkru := by
  have hstep : ((PKURestore (PKUSwitch s id).snd D).snd).pkru =
      SetPkey (s.keys ((s.RegisteredPKUCalls id).did).toNat).pkey 3
        (SetPkey (s.keys ((s.RegisteredPKUCalls id).did).toNat).pkey
          (s.keys ((s.RegisteredPKUCalls id).did).toNat).perm s.pkru) := rfl
  rw [hstep]
  exact SetPkey_restore_of _ _ _ hk hP32 hP0 hb1 hb2 hrest

/-- A state with a registered call (slot 0) for domain 1, which holds
key 1 with permission 0. -/
def sC2 : CState :=
  { initState with
      keys := fun d => if d = 1 then ⟨1, 0, true⟩ else if d = 0 then ⟨0, 0, true⟩ else ⟨0, 0, false⟩,
      RegisteredPKUCalls := fun j => if j = 0 then ⟨1, 7⟩ else ⟨0, 0⟩,
      pkru := 0x5555555C }

/-- Witness for C2: at `sC2` — whose register value `0x5555555C` is
nonzero, has both disable bits set in slot 1, and has bits outside slot
1 — the round trip restores the register exactly. -/
theorem claim_C2_witness :
    (sC2.RegisteredPKUCalls 0).entry ≠ 0 ∧
    ((PKURestore (PKUSwitch sC2 0).snd 0).snd).pkru = sC2.pkru :=
  ⟨by decide,
   claim_C2_switch_restore_roundtrip sC2 0 0 (by decide) (by decide) (by decide) (by decide)
     (by decide) (by decide) (by decide)⟩

/-- The same state as `sC2` but with register value `0x55555554`, whose
slot 1 holds disable-access only. -/
def sC2x : CState := { sC2 with pkru := 0x55555554 }

/-- Claim C2 counterexample: with a registered call id 0 for domain 1
(key 1) and prior register value `0x55555554`, `Switch(0)` followed by
`Restore(0)` yields `0x5555555C` ≠ `0x55555554`: the claimed round-trip
law fails on the code. -/
theorem claim_C2_counterexample :
    (sC2x.RegisteredPKUCalls 0).entry ≠ 0 ∧
    sC2x.pkru = 0x55555554 ∧
    ((PKURestore (PKUSwitch sC2x 0).snd 0).snd).pkru = 0x5555555C := by
  decide

/-- Claim C3 (amended): `PKUDomainAssignPkey` validates that the current
domain and the target domain exist and that `AccessRights` contains only
the two disable flags, failing with `-EINVAL` and leaving the state
unchanged otherwise (including when the current domain itself does not
exist); but on success it does not store `AccessRights`: the `keys`
table is left completely unchanged, and what is committed into the
register for `did`'s key slot is the domain's pre-existing stored
permission bits (`keys[did].perm &&& 3`), not `AccessRights`. -/
theorem claim_C3_assign_pkey (s : CState) (did : Int) (AR : Nat) :
    (DomainExists s s.curDid = false →
      PKUDomainAssignPkey s did AR = (-EINVAL, s)) ∧
    (DomainExists s s.curDid = true → DomainExists s did = false →
      PKUDomainAssignPkey s did AR = (-EINVAL, s)) ∧
    (DomainExists s s.curDid = true → DomainExists s did = true →
      AR &&& (0xFFFFFFFF ^^^ (PKEY_DISABLE_ACCESS ||| PKEY_DISABLE_WRITE)) ≠ 0 →
      PKUDomainAssignPkey s did AR = (-EINVAL, s)) ∧
    (DomainExists s s.curDid = true → DomainExists s did = true →
      AR &&& (0xFFFFFFFF ^^^ (PKEY_DISABLE_ACCESS ||| PKEY_DISABLE_WRITE)) = 0 →
      (PKUDomainAssignPkey s did AR).fst = 0 ∧
      ((PKUDomainAssignPkey s did AR).snd).keys = s.keys ∧
      ((PKUDomainAssignPkey s did AR).snd).pkru =
        SetPkey (s.keys did.toNat).pkey (s.keys did.toNat).perm s.pkru ∧
      ((s.keys did.toNat).pkey < 16 →
        slotBits ((PKUDomainAssignPkey s did AR).snd).pkru (s.keys did.toNat).pkey =
          (s.keys did.toNat).perm &&& 3)) := by
  refine ⟨?_, ?_, ?_, ?_⟩
  · intro h1
    simp [PKUDomainAssignPkey, h1]
  · intro h1 h2
    simp [PKUDomainAssignPkey, h1, h2]
  · intro h1 h2 h3
    simp [PKUDomainAssignPkey, h1, h2, h3]
  · intro h1 h2 h3
    refine ⟨?_, ?_, ?_, ?_⟩
    · simp [PKUDomainAssignPkey, h1, h2, h3]
    · simp [PKUDomainAssignPkey, h1, h2, h3]
    · simp [PKUDomainAssignPkey, h1, h2, h3]
    · intro hk
      have hp : ((PKUDomainAssignPkey s did AR).snd).pkru =
          SetPkey (s.keys did.toNat).pkey (s.keys did.toNat).perm s.pkru := by
        simp [PKUDomainAssignPkey, h1, h2, h3]
      rw [hp]
      exact slotBits_SetPkey_self (s.keys did.toNat).pkey (s.keys did.toNat).perm s.pkru hk

/-- Claim C3 counterexample: at the start state (current domain 0
exists, perm 0, register 0), assigning `AccessRights =
PKEY_DISABLE_WRITE` to the existing domain 0 returns success, but the
stored permission bits remain 0 (≠ 2) and the committed register bits
for key 0 are 0 (≠ 2): the claim that `accessRights` is stored and
committed is false on the code. -/
theorem claim_C3_counterexample :
    (PKUDomainAssignPkey initState 0 PKEY_DISABLE_WRITE).fst = 0 ∧
    (((PKUDomainAssignPkey initState 0 PKEY_DISABLE_WRITE).snd).keys 0).perm = 0 ∧
    (((PKUDomainAssignPkey initState 0 PKEY_DISABLE_WRITE).snd).keys 0).perm ≠ PKEY_DISABLE_WRITE ∧
    slotBits ((PKUDomainAssignPkey initState 0 PKEY_DISABLE_WRITE).snd).pkru 0 = 0 ∧
    slotBits ((PKUDomainAssignPkey initState 0 PKEY_DISABLE_WRITE).snd).pkru 0 ≠ PKEY_DISABLE_WRITE := by
  decide

/-- Witness for C3: at the start state, assigning rights 2 to existing
domain 0 succeeds, keeps the `keys` table unchanged, and commits the
stored permission bits (0); assigning to nonexistent domain 5 fails; and
with a nonexistent current domain (id 5) the call fails even for the
existing target domain 0. -/
theorem claim_C3_witness :
    (PKUDomainAssignPkey initState 0 2).fst = 0 ∧
    ((PKUDomainAssignPkey initState 0 2).snd).keys = initState.keys ∧
    slotBits ((PKUDomainAssignPkey initState 0 2).snd).pkru 0 = 0 &&& 3 ∧
    PKUDomainAssignPkey initState 5 0 = (-EINVAL, initState) ∧
    PKUDomainAssignPkey { initState with curDid := 5 } 0 0 =
      (-EINVAL, { initState with curDid := 5 }) :=
  ⟨((claim_C3_assign_pkey initState 0 2).2.2.2 (by decide) (by decide) (by decide)).1,
   ((claim_C3_assign_pkey initState 0 2).2.2.2 (by decide) (by decide) (by decide)).2.1,
   ((claim_C3_assign_pkey initState 0 2).2.2.2 (by decide) (by decide) (by decide)).2.2.2 (by decide),
   (claim_C3_assign_pkey initState 5 0).2.1 (by decide) (by decide),
   (claim_C3_assign_pkey { initState with curDid := 5 } 0 0).1 (by decide)⟩

/-- An initialized state whose range table has exactly one used Memory
Range Record, at index 16 — the first index the buggy scan in
`PKUPkeyFree` never examines. -/
def sC4 : CState :=
  { initState with dataInitialized := true, rangesUsed := fun r => decide (r = 16) }

/-- Claim C4: the spec requires `FreeKey` to fail with PermissionDenied
whenever at least one Memory Range Record anywhere in the 4096-entry
table is marked used.  The code's scan loop runs `rid` only up to
`NUM_DOMAINS` (16), not `NUM_MPROTECT_RANGES` (4096).  Evaluated at the
failing input — a state whose only used range record sits at index 16 —
`PKUPkeyFree(0)` returns 0 (success) with errno untouched instead of
failing with EPERM, exhibiting the loop-bound code bug. -/
theorem claim_C4_free_key_eval :
    sC4.rangesUsed 16 = true ∧
    (PKUPkeyFree sC4 0).ret = 0 ∧
    (PKUPkeyFree sC4 0).errno = none := by
  decide

/-- An initialized state in which domains 0 and 1 exist in the `keys`
registry and no `g_data.domains` slot or range record is in use. -/
def sC6 : CState :=
  { initState with
      dataInitialized := true,
      keys := fun d => if d = 0 then ⟨0, 0, true⟩ else if d = 1 then ⟨1, 0, true⟩ else ⟨0, 0, false⟩ }

/-- Claim C6 counterexample: the claim states that after `FreeDomain(did)`
clears the freed domain's fields, "that domain no longer exists".  But
`PKUDomainFree` clears the slot of the separate `g_data.domains` table,
not the `keys` registry which `DomainExists` consults: freeing the
existing domain 1 succeeds, yet `DomainExists` still reports domain 1 as
existing afterwards. -/
theorem claim_C6_counterexample :
    DomainExists sC6 1 = true ∧
    (PKUDomainFree sC6 1).ret = 0 ∧
    DomainExists ((PKUDomainFree sC6 1).state) 1 = true := by
  decide

/-- Claim C6 (amended): `PKUDomainFree(did)` fails (-1, errno untouched)
when the registry is uninitialized; fails (-1, EINVAL) when `did` does
not exist; additionally fails (-1, EINVAL) when any `g_data.domains`
slot is marked used; otherwise it succeeds, invoking the configured
cleanup callback exactly once per still-used Memory Range Record across
the whole 4096-entry table in table order regardless of owner, and last
clears the key/permission/used fields of the freed domain's
`g_data.domains` slot — but not its `keys` registry entry, so the domain
still exists afterwards. -/
theorem claim_C6_domain_free (s : CState) (did : Int) :
    (s.dataInitialized = false → PKUDomainFree s did = ⟨-1, none, s, []⟩) ∧
    (s.dataInitialized = true → DomainExists s did = false →
      PKUDomainFree s did = ⟨-1, some EINVAL, s, []⟩) ∧
    (s.dataInitialized = true → DomainExists s did = true →
      (∃ d, d < NUM_DOMAINS ∧ (s.domains d).used = true) →
      PKUDomainFree s did = ⟨-1, some EINVAL, s, []⟩) ∧
    (s.dataInitialized = true → DomainExists s did = true →
      (∀ d, d < NUM_DOMAINS → (s.domains d).used = false) →
      (PKUDomainFree s did).ret = 0 ∧
      (PKUDomainFree s did).errno = none ∧
      (PKUDomainFree s did).trace =
        ((List.range NUM_MPROTECT_RANGES).filter s.rangesUsed).map s.rangesAddr ∧
      ((PKUDomainFree s did).state).domains did.toNat = ⟨0, 0, false⟩ ∧
      (∀ d, d ≠ did.toNat → ((PKUDomainFree s did).state).domains d = s.domains d) ∧
      ((PKUDomainFree s did).state).keys = s.keys ∧
      DomainExists ((PKUDomainFree s did).state) did = true) := by
  refine ⟨?_, ?_, ?_, ?_⟩
  · intro h1
    simp [PKUDomainFree, h1]
  · intro h1 h2
    simp [PKUDomainFree, h1, h2]
  · intro h1 h2 h3
    have hany : (List.range NUM_DOMAINS).any (fun d => (s.domains d).used) = true := by
      rw [List.any_eq_true]
      obtain ⟨d, hd, hu⟩ := h3
      exact ⟨d, List.mem_range.mpr hd, hu⟩
    simp [PKUDomainFree, h1, h2, hany]
  · intro h1 h2 h3
    have hany : (List.range NUM_DOMAINS).any (fun d => (s.domains d).used) = false := by
      rw [Bool.eq_false_iff]
      intro hc
      rw [List.any_eq_true] at hc
      obtain ⟨d, hd, hu⟩ := hc
      exact absurd hu (by simp [h3 d (List.mem_range.mp hd)])
    have hres : PKUDomainFree s did =
        ⟨0, none,
         { s with domains := fun d => if d = did.toNat then ⟨0, 0, false⟩ else s.domains d },
         sweepRanges s 0 NUM_MPROTECT_RANGES⟩ := by
      simp [PKUDomainFree, h1, h2, hany]
    rw [hres]
    refine ⟨rfl, rfl, ?_, by simp, ?_, rfl, ?_⟩
    · rw [sweepRanges_eq]
      rw [show List.range' 0 NUM_MPROTECT_RANGES = List.range NUM_MPROTECT_RANGES from
        (List.range_eq_range' NUM_MPROTECT_RANGES).symm]
    · intro d hd
      simp [hd]
    · simpa [DomainExists] using h2

/-- Witness for C6: at `sC6`, freeing domain 1 succeeds with an empty
callback trace, clears the `g_data.domains` slot, and leaves domain 1
existing in the registry; freeing the nonexistent domain 5 fails with
EINVAL; on the uninitialized start state freeing fails with errno
untouched. -/
theorem claim_C6_witness :
    (PKUDomainFree sC6 1).ret = 0 ∧
    (PKUDomainFree sC6 1).trace =
      ((List.range NUM_MPROTECT_RANGES).filter sC6.rangesUsed).map sC6.rangesAddr ∧
    DomainExists ((PKUDomainFree sC6 1).state) 1 = true ∧
    PKUDomainFree sC6 5 = ⟨-1, some EINVAL, sC6, []⟩ ∧
    PKUDomainFree initState 1 = ⟨-1, none, initState, []⟩ :=
  ⟨((claim_C6_domain_free sC6 1).2.2.2 rfl (by decide) (fun d hd => rfl)).1,
   ((claim_C6_domain_free sC6 1).2.2.2 rfl (by decide) (fun d hd => rfl)).2.2.1,
   ((claim_C6_domain_free sC6 1).2.2.2 rfl (by decide) (fun d hd => rfl)).2.2.2.2.2.2,
   (claim_C6_domain_free sC6 5).2.1 rfl (by decide),
   (claim_C6_domain_free initState 1).1 rfl⟩
